import Mathlib

/-!
Verification of the connection-bootstrap-and-retry subsystem of
`btc-alpha-stack` (files `src/utils.py`, `src/shared/chains.py`,
`src/config.py`) against its natural-language specification.

The Python code is shallowly embedded:
* `retry_with_backoff` (src/utils.py lines 51-74): the zero-argument
  callable is modelled as a function from the invocation index (0-based)
  to `Except E T`, so an arbitrary sequence of failures and successes can
  be expressed.  `sleep` durations are accumulated in a list of exact
  rationals (the delays the code produces, `d, 2d, 4d, ...`, are exact in
  IEEE doubles as well, since doubling only bumps the exponent).
* `_connect` / `_initialize_connections` (src/shared/chains.py): the
  process environment is a function `String → Option String`, endpoint
  reachability (`w3.isConnected()`) is a predicate on URLs, and raised
  exceptions become `Except` errors carrying the same data as the Python
  exception messages.
* `_get_env` (src/config.py lines 18-30): same environment model; the
  `RuntimeError` is the exact message string the code formats.
-/

/-! ## Definitions: RetryExecutor, `retry_with_backoff` (src/utils.py) -/

/-- Observable outcome of one call to `retry_with_backoff`: the value
returned or exception propagated, how many times `func` was invoked, and
the sequence of `sleep` durations requested, in order. -/
structure RetryResult (E T : Type) where
  result : Except E T
  calls : Nat
  sleeps : List ℚ
deriving Repr

/-- The `for attempt in range(retries)` loop of `retry_with_backoff`:
`fuel` is the number of loop iterations left, `attempt` the 0-based index
of the next invocation, `currentDelay` the Python `current_delay`.  When
the loop is exhausted (`fuel = 0`) the code makes one final unconditional
call whose result (value or exception) goes straight to the caller. -/
def retryAux {E T : Type} (func : Nat → Except E T) :
    Nat → ℚ → Nat → RetryResult E T
  | attempt, _, 0 => { result := func attempt, calls := 1, sleeps := [] }
  | attempt, currentDelay, fuel + 1 =>
    match func attempt with
    | .ok v => { result := .ok v, calls := 1, sleeps := [] }
    | .error _ =>
      let r := retryAux func (attempt + 1) (currentDelay * 2) fuel
      { result := r.result, calls := r.calls + 1,
        sleeps := currentDelay :: r.sleeps }

/-- `retry_with_backoff(func, retries, delay)` from src/utils.py: runs the
loop for `retries` iterations starting with delay `delay`, then the final
unconditional call. -/
def retry_with_backoff {E T : Type} (func : Nat → Except E T)
    (retries : Nat) (delay : ℚ) : RetryResult E T :=
  retryAux func 0 delay retries

/-! ## Definitions: ConnectionBootstrapper (src/shared/chains.py) -/

/-- Errors raised inside src/shared/chains.py: `ValueError(f"{env_var} is
required for {name}")` for a missing RPC URL, and
`ConnectionError(f"Failed to connect to {name}")` for an unreachable
endpoint. -/
inductive ChainError where
  | configError (envVar chainName : String)
  | connectivityError (chainName : String)
deriving DecidableEq, Repr

/-- `ChainConnection` dataclass: the opaque `Web3` handle is identified by
the URL it was opened against (`Web3(Web3.HTTPProvider(url))`). -/
structure ChainConnection where
  name : String
  web3 : String
deriving DecidableEq, Repr

/-- `_connect(name, env_var)`: reads `os.getenv(env_var)`; a missing or
empty value (`if not url`) raises the `ValueError`; an endpoint for which
`w3.isConnected()` is false raises the `ConnectionError`; otherwise a
`ChainConnection` is returned.  `env` models the process environment and
`reachable` models `isConnected` as a function of the URL. -/
def _connect (env : String → Option String) (reachable : String → Bool)
    (name envVar : String) : Except ChainError ChainConnection :=
  match env envVar with
  | none => .error (.configError envVar name)
  | some url =>
    if url = "" then .error (.configError envVar name)
    else if reachable url then .ok { name := name, web3 := url }
    else .error (.connectivityError name)

/-- The loop body of `_initialize_connections`, generalized over the entry
list it iterates (the spec names this operation `bootstrapAll`): connects
the entries in order, appending each connection; the first exception
propagates and no list is returned. -/
def bootstrapAll (env : String → Option String) (reachable : String → Bool) :
    List (String × String) → Except ChainError (List ChainConnection)
  | [] => .ok []
  | p :: rest =>
    match _connect env reachable p.1 p.2 with
    | .error e => .error e
    | .ok c =>
      match bootstrapAll env reachable rest with
      | .error e => .error e
      | .ok cs => .ok (c :: cs)

/-- The fixed `chain_envs` list of `_initialize_connections`. -/
def chain_envs : List (String × String) :=
  [("ethereum", "ETH_RPC_URL"),
   ("polygon", "POLYGON_RPC_URL"),
   ("arbitrum", "ARBITRUM_RPC_URL"),
   ("optimism", "OPTIMISM_RPC_URL"),
   ("bsc", "BSC_RPC_URL")]

/-- `_initialize_connections()`: bootstraps the fixed chain list. -/
def _initialize_connections (env : String → Option String)
    (reachable : String → Bool) : Except ChainError (List ChainConnection) :=
  bootstrapAll env reachable chain_envs

/-! ## Definitions: configuration loader `_get_env` (src/config.py) -/

/-- `_get_env(name, default, required=...)` from src/config.py: the value
is `os.getenv(name, default)` (the variable when set, otherwise
`default`); when `required` is true and the value is `None` a
`RuntimeError` with the exact formatted message is raised. -/
def _get_env (env : String → Option String) (name : String)
    (default : Option String) (required : Bool) :
    Except String (Option String) :=
  let value := match env name with
    | some v => some v
    | none => default
  if required && value.isNone then
    .error ("Environment variable \x27" ++ name ++ "\x27 is required but not set")
  else
    .ok value

/-! ## Definitions: ConversionUtilities (src/utils.py) -/

/-- Modelled from the spec: `wei_to_ether` in src/utils.py delegates to
`Web3.fromWei(value, "ether")`, whose body lives in the external `web3`
dependency, not in this repository; per §4.3 it is exact base-10 scaling
by the fixed exponent 18 into a decimal (here: exact rational) value. -/
def wei_to_ether (value : ℤ) : ℚ :=
  (value : ℚ) / 10 ^ 18

/-- Modelled from the spec: `ether_to_wei` in src/utils.py delegates to
`Web3.toWei(value, "ether")`, whose body lives in the external `web3`
dependency, not in this repository; per §4.3 it scales the decimal value
by `10 ^ 18` back to an integer and fails with a `ConversionError` when
the scaled value is not an integer. -/
def ether_to_wei (value : ℚ) : Except String ℤ :=
  if (value * 10 ^ 18).den = 1 then .ok (value * 10 ^ 18).num
  else .error "ConversionError"

/-! ## Definitions: concrete actions and environments used as inputs -/

/-- An action that fails on every invocation; the error records the
invocation index so distinct attempts raise distinguishable errors. -/
def alwaysFailAction : Nat → Except Nat Unit :=
  fun i => .error i

/-- An action that fails on its first two invocations and succeeds with
`42` from the third on (the §8 scenario of the spec). -/
def failTwiceAction : Nat → Except Unit Nat :=
  fun i => if i < 2 then .error () else .ok 42

/-- An action that succeeds immediately with `7`. -/
def immediateOkAction : Nat → Except Unit Nat :=
  fun _ => .ok 7

/-- Environment of the §8 scenario: ethereum URL set and reachable,
polygon URL set but its endpoint down. -/
def envTwoChains : String → Option String := fun s =>
  if s = "ETH_RPC_URL" then some "https://eth-ok"
  else if s = "POLYGON_RPC_URL" then some "https://polygon-down"
  else none

/-- Reachability of the §8 scenario: only the ethereum endpoint answers. -/
def reachTwoChains : String → Bool :=
  fun url => url = "https://eth-ok"

/-- Environment with ethereum and bsc URLs set (all-success scenario). -/
def envAllReach : String → Option String := fun s =>
  if s = "ETH_RPC_URL" then some "https://eth-ok"
  else if s = "BSC_RPC_URL" then some "https://bsc-ok"
  else none

/-- Reachability making every endpoint answer. -/
def reachAlways : String → Bool :=
  fun _ => true

/-- Environment where only the ethereum URL is set; polygon's is absent. -/
def envMissingUrl : String → Option String := fun s =>
  if s = "ETH_RPC_URL" then some "https://eth-ok" else none

/-! ## Lemmas about the retry loop -/

lemma retryAux_calls_le {E T : Type} (func : Nat → Except E T) :
    ∀ (fuel attempt : Nat) (d : ℚ),
      (retryAux func attempt d fuel).calls ≤ fuel + 1 := by
  intro fuel
  induction fuel with
  | zero => intro attempt d; simp [retryAux]
  | succ n ih =>
    intro attempt d
    simp only [retryAux]
    cases h : func attempt with
    | ok v => simp
    | error e =>
      simp only []
      have := ih (attempt + 1) (d * 2)
      omega

/-- When every invocation fails, the loop runs out of fuel: each iteration
consumes one invocation and sleeps the current delay, then doubles it. -/
lemma retryAux_allFail {E T : Type} (func : Nat → Except E T)
    (err : Nat → E) (hf : ∀ i, func i = .error (err i)) :
    ∀ (fuel attempt : Nat) (d : ℚ),
      retryAux func attempt d fuel =
        { result := .error (err (attempt + fuel)), calls := fuel + 1,
          sleeps := (List.range fuel).map (fun i => d * 2 ^ i) } := by
  intro fuel
  induction fuel with
  | zero =>
    intro attempt d
    simp [retryAux, hf attempt]
  | succ n ih =>
    intro attempt d
    simp only [retryAux, hf attempt]
    rw [ih (attempt + 1) (d * 2)]
    have harr : attempt + 1 + n = attempt + (n + 1) := by omega
    have hmap : (List.range (n + 1)).map (fun i => d * 2 ^ i) =
        d :: (List.range n).map (fun i => d * 2 * 2 ^ i) := by
      rw [List.range_succ_eq_map, List.map_cons, List.map_map]
      have hfun : ((fun i : Nat => d * 2 ^ i) ∘ Nat.succ) =
          fun i : Nat => d * 2 * 2 ^ i := by
        funext i
        simp [Function.comp, pow_succ]
        ring
      rw [hfun]
      norm_num
    rw [hmap, harr]

/-- If the first `j` invocations fail and invocation `j` succeeds with
`j ≤ fuel`, the loop returns that success after `j + 1` invocations and
the doubling sleeps `d, 2d, ..., 2^(j-1) d`. -/
lemma retryAux_firstOk {E T : Type} (func : Nat → Except E T) (v : T) :
    ∀ (j attempt : Nat) (d : ℚ) (fuel : Nat), j ≤ fuel →
      (∀ i, i < j → ∃ e, func (attempt + i) = .error e) →
      func (attempt + j) = .ok v →
      retryAux func attempt d fuel =
        { result := .ok v, calls := j + 1,
          sleeps := (List.range j).map (fun i => d * 2 ^ i) } := by
  intro j
  induction j with
  | zero =>
    intro attempt d fuel _ _ hsucc
    simp only [Nat.add_zero] at hsucc
    cases fuel with
    | zero => simp [retryAux, hsucc]
    | succ n => simp [retryAux, hsucc]
  | succ m ih =>
    intro attempt d fuel hle hfail hsucc
    cases fuel with
    | zero => omega
    | succ n =>
      obtain ⟨e, he⟩ := hfail 0 (by omega)
      simp only [Nat.add_zero] at he
      simp only [retryAux, he]
      have hrec := ih (attempt + 1) (d * 2) n (by omega)
        (fun i hi => by
          have := hfail (i + 1) (by omega)
          simpa [Nat.add_assoc, Nat.add_comm 1 i] using this)
        (by
          have : attempt + 1 + m = attempt + (m + 1) := by omega
          rw [this]; exact hsucc)
      rw [hrec]
      have hmap : (List.range (m + 1)).map (fun i => d * 2 ^ i) =
          d :: (List.range m).map (fun i => d * 2 * 2 ^ i) := by
        rw [List.range_succ_eq_map, List.map_cons, List.map_map]
        have hfun : ((fun i : Nat => d * 2 ^ i) ∘ Nat.succ) =
            fun i : Nat => d * 2 * 2 ^ i := by
          funext i
          simp [Function.comp, pow_succ]
          ring
        rw [hfun]
        norm_num
      rw [hmap]

/-- Total sleep of the doubling schedule `d, 2d, ..., 2^(n-1) d`. -/
lemma sleeps_sum (d : ℚ) :
    ∀ n : Nat, ((List.range n).map (fun i => d * 2 ^ i)).sum =
      d * (2 ^ n - 1) := by
  intro n
  induction n with
  | zero => simp
  | succ m ih =>
    rw [List.range_succ, List.map_append, List.sum_append]
    simp [ih, pow_succ]
    ring

/-! ## Lemmas about the bootstrap loop -/

lemma bootstrapAll_cons (env : String → Option String)
    (reachable : String → Bool) (p : String × String)
    (rest : List (String × String)) :
    bootstrapAll env reachable (p :: rest) =
      match _connect env reachable p.1 p.2 with
      | .error e => .error e
      | .ok c =>
        match bootstrapAll env reachable rest with
        | .error e => .error e
        | .ok cs => .ok (c :: cs) := rfl

lemma _connect_ok (env : String → Option String) (reachable : String → Bool)
    (name envVar url : String) (hurl : env envVar = some url)
    (hne : url ≠ "") (hreach : reachable url = true) :
    _connect env reachable name envVar = .ok { name := name, web3 := url } := by
  simp [_connect, hurl, hne, hreach]

/-- Fail-fast: if every entry of `pre` connects and the next entry fails,
the whole bootstrap evaluates to that entry's error. -/
lemma bootstrapAll_append_fail (env : String → Option String)
    (reachable : String → Bool) (name envVar : String) (e : ChainError) :
    ∀ (pre post : List (String × String)),
      (∀ p ∈ pre, ∃ c, _connect env reachable p.1 p.2 = .ok c) →
      _connect env reachable name envVar = .error e →
      bootstrapAll env reachable (pre ++ (name, envVar) :: post) = .error e := by
  intro pre
  induction pre with
  | nil =>
    intro post _ hfail
    rw [List.nil_append, bootstrapAll_cons]
    simp only [hfail]
  | cons hd tl ih =>
    intro post hpre hfail
    obtain ⟨c, hc⟩ := hpre hd (List.mem_cons_self hd tl)
    have htl := ih post (fun p hp => hpre p (List.mem_cons_of_mem hd hp)) hfail
    rw [List.cons_append, bootstrapAll_cons, hc, htl]

/-- All-entries-reachable success: the bootstrap returns exactly the list
of connections in input order, one per entry. -/
lemma bootstrapAll_ok (env : String → Option String)
    (reachable : String → Bool) :
    ∀ entries : List (String × String),
      (∀ p ∈ entries, ∃ url, env p.2 = some url ∧ url ≠ "" ∧
        reachable url = true) →
      bootstrapAll env reachable entries =
        .ok (entries.map fun p =>
          { name := p.1, web3 := (env p.2).getD "" }) := by
  intro entries
  induction entries with
  | nil => intro _; rfl
  | cons hd tl ih =>
    intro h
    obtain ⟨url, hurl, hne, hreach⟩ := h hd (List.mem_cons_self hd tl)
    have htl := ih (fun p hp => h p (List.mem_cons_of_mem hd hp))
    rw [bootstrapAll_cons,
      _connect_ok env reachable hd.1 hd.2 url hurl hne hreach, htl]
    simp [hurl]

/-! ## Lemmas about `_get_env` -/

/-- Case analysis of `_get_env`: the variable wins when set; otherwise the
default is returned unless `required` is true and the default is `None`,
in which case the formatted `RuntimeError` is raised. -/
lemma _get_env_eq (env : String → Option String) (name : String)
    (default : Option String) (required : Bool) :
    _get_env env name default required =
      match env name with
      | some v => .ok (some v)
      | none =>
        match required, default with
        | true, none =>
          .error ("Environment variable \x27" ++ name ++
            "\x27 is required but not set")
        | _, _ => .ok default := by
  cases henv : env name <;> cases required <;> cases default <;>
    simp [_get_env, henv]

/-! ## Claims about the RetryExecutor -/

/-- C1 (amended): `retry_with_backoff` invokes the action at most
`retries + 1` times in total (not at most `retries`): the loop makes up
to `retries` caught invocations and one extra unconditional final call
follows it.  When the action fails on every invocation it is invoked
exactly `retries + 1` times; in particular for `retries = 3` exactly 4
times, not 3. -/
theorem retry_calls_at_most_retries_succ {E T : Type}
    (func : Nat → Except E T) (retries : Nat) (delay : ℚ) :
    (retry_with_backoff func retries delay).calls ≤ retries + 1 ∧
    (∀ err : Nat → E, (∀ i, func i = .error (err i)) →
      (retry_with_backoff func retries delay).calls = retries + 1) := by
  constructor
  · exact retryAux_calls_le func retries 0 delay
  · intro err hf
    rw [retry_with_backoff, retryAux_allFail func err hf retries 0 delay]

/-- C1 (witness): for the always-failing action with `retries = 3` and
initial delay 1 the bound `retries + 1` is attained: exactly 4 calls. -/
theorem retry_calls_at_most_retries_succ_witness :
    (retry_with_backoff alwaysFailAction 3 1).calls ≤ 4 ∧
    (retry_with_backoff alwaysFailAction 3 1).calls = 4 := by
  have h := retry_calls_at_most_retries_succ alwaysFailAction 3 1
  exact ⟨h.1, h.2 (fun i => i) (fun i => rfl)⟩

/-- C1 (counterexample): the claim "at most `maxAttempts` invocations,
and exactly 3 when `maxAttempts = 3` and the action always fails" is
false on the code: with `retries = 3` and an always-failing action the
action is invoked 4 times. -/
theorem retry_calls_claim_false :
    (retry_with_backoff alwaysFailAction 3 1).calls = 4 ∧
    ¬ (retry_with_backoff alwaysFailAction 3 1).calls ≤ 3 ∧
    (retry_with_backoff alwaysFailAction 3 1).calls ≠ 3 := by
  refine ⟨rfl, ?_, ?_⟩
  · intro h
    have hc : (retry_with_backoff alwaysFailAction 3 1).calls = 4 := rfl
    omega
  · intro h
    have hc : (retry_with_backoff alwaysFailAction 3 1).calls = 4 := rfl
    omega

/-- C4: when the action fails on every invocation, `retry_with_backoff`
propagates the error of the last ((retries + 1)-th) invocation to the
caller — the final unconditional `return func()` re-raises it — and no
final error is swallowed: the call never produces an `ok` value. -/
theorem retry_propagates_last_error {E T : Type}
    (func : Nat → Except E T) (err : Nat → E) (retries : Nat) (delay : ℚ)
    (hf : ∀ i, func i = .error (err i)) :
    (retry_with_backoff func retries delay).result = .error (err retries) ∧
    ∀ v : T, (retry_with_backoff func retries delay).result ≠ .ok v := by
  have h := retryAux_allFail func err hf retries 0 delay
  rw [retry_with_backoff, h]
  simp

/-- C4 (witness): the always-failing action whose i-th invocation raises
the error `i`: with `retries = 3` the caller receives exactly the error
of the 4th and last invocation, namely `3`. -/
theorem retry_propagates_last_error_witness :
    (retry_with_backoff alwaysFailAction 3 1).result = .error 3 ∧
    ∀ v : Unit, (retry_with_backoff alwaysFailAction 3 1).result ≠ .ok v := by
  have h := retry_propagates_last_error alwaysFailAction (fun i => i) 3 1
    (fun i => rfl)
  exact h

/-- C5: between failed attempts `retry_with_backoff` sleeps the doubling
schedule `d, 2d, 4d, ...` starting at `delay`: if the first `j`
invocations fail and invocation `j` succeeds (0-based, `j ≤ retries`),
the success value is returned after `j + 1` invocations, the individual
sleeps are exactly `delay * 2 ^ i` for `i < j`, and the total sleep is
`delay * (2 ^ j - 1)` — for the §8 scenario (`retries = 3`, `delay = 1`,
two failures then success) that is 3 invocations and `1 + 2 = 3` seconds
of waiting. -/
theorem retry_backoff_schedule {E T : Type} (func : Nat → Except E T)
    (v : T) (j retries : Nat) (delay : ℚ) (hj : j ≤ retries)
    (hfail : ∀ i, i < j → ∃ e, func i = .error e)
    (hsucc : func j = .ok v) :
    (retry_with_backoff func retries delay).result = .ok v ∧
    (retry_with_backoff func retries delay).calls = j + 1 ∧
    (retry_with_backoff func retries delay).sleeps =
      (List.range j).map (fun i => delay * 2 ^ i) ∧
    (retry_with_backoff func retries delay).sleeps.sum =
      delay * (2 ^ j - 1) := by
  have h := retryAux_firstOk func v j 0 delay retries hj
    (by simpa using hfail) (by simpa using hsucc)
  rw [retry_with_backoff, h]
  exact ⟨rfl, rfl, rfl, sleeps_sum delay j⟩

/-- C5 (witness): the §8 scenario — the action fails on invocations 0 and
1 and returns 42 on invocation 2; with `retries = 3`, `delay = 1` the
call returns 42 after exactly 3 invocations, sleeping 1 then 2 for a
total of 3. -/
theorem retry_backoff_schedule_witness :
    (retry_with_backoff failTwiceAction 3 1).result = .ok 42 ∧
    (retry_with_backoff failTwiceAction 3 1).calls = 3 ∧
    (retry_with_backoff failTwiceAction 3 1).sleeps = [1, 2] ∧
    (retry_with_backoff failTwiceAction 3 1).sleeps.sum = 3 := by
  have h := retry_backoff_schedule failTwiceAction 42 2 3 1
    (by omega)
    (fun i hi => ⟨(), by simp [failTwiceAction, hi]⟩)
    (by simp [failTwiceAction])
  refine ⟨h.1, h.2.1, ?_, ?_⟩
  · rw [h.2.2.1]
    norm_num [List.range_succ]
  · rw [h.2.2.2]
    norm_num

/-- C6: `retry_with_backoff` terminates successfully at the first
invocation that does not fail, returning its value; in particular when
the very first invocation succeeds the action is invoked exactly once and
no sleep occurs. -/
theorem retry_first_invocation_ok {E T : Type} (func : Nat → Except E T)
    (v : T) (j retries : Nat) (delay : ℚ) (hj : j ≤ retries)
    (hfail : ∀ i, i < j → ∃ e, func i = .error e)
    (hsucc : func j = .ok v) :
    (retry_with_backoff func retries delay).result = .ok v ∧
    (j = 0 → (retry_with_backoff func retries delay).calls = 1 ∧
      (retry_with_backoff func retries delay).sleeps = []) := by
  have h := retryAux_firstOk func v j 0 delay retries hj
    (by simpa using hfail) (by simpa using hsucc)
  rw [retry_with_backoff, h]
  refine ⟨rfl, fun hz => ?_⟩
  subst hz
  exact ⟨rfl, rfl⟩

/-- C6 (witness): an action succeeding immediately with 7: one
invocation, no sleep, value 7 returned (here with `retries = 5`,
`delay = 1`). -/
theorem retry_first_invocation_ok_witness :
    (retry_with_backoff immediateOkAction 5 1).result = .ok 7 ∧
    (retry_with_backoff immediateOkAction 5 1).calls = 1 ∧
    (retry_with_backoff immediateOkAction 5 1).sleeps = [] := by
  have h := retry_first_invocation_ok immediateOkAction 7 0 5 1
    (by omega) (fun i hi => absurd hi (by omega)) rfl
  exact ⟨h.1, (h.2 rfl).1, (h.2 rfl).2⟩

/-- C9: for every `retries = n ≥ 0`, an action failing on every
invocation is invoked exactly `n + 1` times (`n` caught in-loop attempts
plus the final unconditional call), the total sleep is
`delay * (2 ^ n - 1)`, the exception of the final invocation propagates
unwrapped to the caller, and for `n = 0` there is exactly one invocation
and no sleep. -/
theorem retry_always_failing_exact {E T : Type} (func : Nat → Except E T)
    (err : Nat → E) (retries : Nat) (delay : ℚ)
    (hf : ∀ i, func i = .error (err i)) :
    (retry_with_backoff func retries delay).calls = retries + 1 ∧
    (retry_with_backoff func retries delay).sleeps.sum =
      delay * (2 ^ retries - 1) ∧
    (retry_with_backoff func retries delay).result = .error (err retries) ∧
    (retries = 0 → (retry_with_backoff func retries delay).calls = 1 ∧
      (retry_with_backoff func retries delay).sleeps = []) := by
  have h := retryAux_allFail func err hf retries 0 delay
  rw [retry_with_backoff, h]
  refine ⟨rfl, sleeps_sum delay retries, by simp, fun hz => ?_⟩
  subst hz
  exact ⟨rfl, rfl⟩

/-- C9 (witness): the always-failing action with `retries = 2`,
`delay = 5`: 3 invocations, total sleep `5 + 10 = 15 = 5 * (2 ^ 2 - 1)`,
and the error `2` of the final invocation propagates; separately, with
`retries = 0` there is exactly one invocation and no sleep. -/
theorem retry_always_failing_exact_witness :
    (retry_with_backoff alwaysFailAction 2 5).calls = 3 ∧
    (retry_with_backoff alwaysFailAction 2 5).sleeps.sum = 15 ∧
    (retry_with_backoff alwaysFailAction 2 5).result = .error 2 ∧
    (retry_with_backoff alwaysFailAction 0 5).calls = 1 ∧
    (retry_with_backoff alwaysFailAction 0 5).sleeps = [] := by
  have h := retry_always_failing_exact alwaysFailAction (fun i => i) 2 5
    (fun i => rfl)
  have h0 := retry_always_failing_exact alwaysFailAction (fun i => i) 0 5
    (fun i => rfl)
  refine ⟨h.1, ?_, h.2.2.1, (h0.2.2.2 rfl).1, (h0.2.2.2 rfl).2⟩
  rw [h.2.1]
  norm_num

/-! ## Claims about the ConnectionBootstrapper -/

/-- C2: the first failing entry (missing URL or unreachable endpoint)
aborts the whole bootstrap: however many earlier entries connected
successfully, the result is exactly that entry's error and no connection
list — partial or otherwise — is ever returned. -/
theorem bootstrap_fail_fast (env : String → Option String)
    (reachable : String → Bool) (pre post : List (String × String))
    (name envVar : String) (e : ChainError)
    (hpre : ∀ p ∈ pre, ∃ c, _connect env reachable p.1 p.2 = .ok c)
    (hfail : _connect env reachable name envVar = .error e) :
    bootstrapAll env reachable (pre ++ (name, envVar) :: post) = .error e ∧
    ∀ l, bootstrapAll env reachable (pre ++ (name, envVar) :: post) ≠ .ok l := by
  have h := bootstrapAll_append_fail env reachable name envVar e pre post
    hpre hfail
  refine ⟨h, fun l hl => ?_⟩
  rw [h] at hl
  exact Except.noConfusion hl

/-- C2 (witness): the §8 scenario — ethereum connects, polygon's endpoint
is down: the two-entry bootstrap fails with the polygon
`ConnectivityError` and returns no list. -/
theorem bootstrap_fail_fast_witness :
    bootstrapAll envTwoChains reachTwoChains
        [("ethereum", "ETH_RPC_URL"), ("polygon", "POLYGON_RPC_URL")] =
      .error (.connectivityError "polygon") ∧
    ∀ l, bootstrapAll envTwoChains reachTwoChains
        [("ethereum", "ETH_RPC_URL"), ("polygon", "POLYGON_RPC_URL")] ≠
      .ok l := by
  have h := bootstrap_fail_fast envTwoChains reachTwoChains
    [("ethereum", "ETH_RPC_URL")] [] "polygon" "POLYGON_RPC_URL"
    (.connectivityError "polygon")
    (fun p hp => by
      rcases List.mem_cons.mp hp with h1 | h1
      · subst h1
        exact ⟨{ name := "ethereum", web3 := "https://eth-ok" }, rfl⟩
      · exact absurd h1 (List.not_mem_nil p))
    rfl
  exact h

/-- C3: when every configured entry has a present, non-empty and
reachable URL, `bootstrapAll` succeeds with exactly one connection per
entry, member order equal to input order (names listwise equal to the
input names), name-uniqueness inherited from the input names, and the
fixed configured `chain_envs` names are indeed unique. -/
theorem bootstrap_all_reachable_ok (env : String → Option String)
    (reachable : String → Bool) (entries : List (String × String))
    (h : ∀ p ∈ entries, ∃ url, env p.2 = some url ∧ url ≠ "" ∧
      reachable url = true) :
    ∃ l, bootstrapAll env reachable entries = .ok l ∧
      l.length = entries.length ∧
      l.map ChainConnection.name = entries.map Prod.fst ∧
      ((entries.map Prod.fst).Nodup → (l.map ChainConnection.name).Nodup) ∧
      (chain_envs.map Prod.fst).Nodup := by
  refine ⟨entries.map (fun p => { name := p.1, web3 := (env p.2).getD "" }),
    bootstrapAll_ok env reachable entries h, by simp, ?_, ?_, by decide⟩
  · rw [List.map_map]
    rfl
  · intro hn
    rw [List.map_map]
    exact hn

/-- C3 (witness): the §8 all-reachable scenario with entries ethereum
then bsc: a registry of length 2 is returned, names `ethereum`, `bsc` in
input order and unique. -/
theorem bootstrap_all_reachable_ok_witness :
    ∃ l, bootstrapAll envAllReach reachAlways
        [("ethereum", "ETH_RPC_URL"), ("bsc", "BSC_RPC_URL")] = .ok l ∧
      l.length = 2 ∧
      l.map ChainConnection.name = ["ethereum", "bsc"] ∧
      (l.map ChainConnection.name).Nodup := by
  obtain ⟨l, h1, h2, h3, h4, _⟩ := bootstrap_all_reachable_ok envAllReach
    reachAlways [("ethereum", "ETH_RPC_URL"), ("bsc", "BSC_RPC_URL")]
    (fun p hp => by
      rcases List.mem_cons.mp hp with hc | hc
      · subst hc
        exact ⟨"https://eth-ok", rfl, by decide, rfl⟩
      · rcases List.mem_cons.mp hc with hc2 | hc2
        · subst hc2
          exact ⟨"https://bsc-ok", rfl, by decide, rfl⟩
        · exact absurd hc2 (List.not_mem_nil p))
  refine ⟨l, h1, by simpa using h2, by simpa using h3, h4 (by decide)⟩

/-- C7: when the configured URL variable is absent or empty, `_connect`
fails with the `ValueError` naming exactly that variable (the model's
`ChainError.configError`), and a bootstrap whose earlier entries all
connect fails as a whole with that same error, returning no list. -/
theorem connect_missing_url_config_error (env : String → Option String)
    (reachable : String → Bool) (name envVar : String)
    (hmiss : env envVar = none ∨ env envVar = some "") :
    _connect env reachable name envVar = .error (.configError envVar name) ∧
    ∀ pre post,
      (∀ p ∈ pre, ∃ c, _connect env reachable p.1 p.2 = .ok c) →
      bootstrapAll env reachable (pre ++ (name, envVar) :: post) =
        .error (.configError envVar name) ∧
      ∀ l, bootstrapAll env reachable (pre ++ (name, envVar) :: post) ≠
        .ok l := by
  have hc : _connect env reachable name envVar =
      .error (.configError envVar name) := by
    rcases hmiss with h | h <;> simp [_connect, h]
  refine ⟨hc, fun pre post hpre => ?_⟩
  have h := bootstrapAll_append_fail env reachable name envVar _ pre post
    hpre hc
  refine ⟨h, fun l hl => ?_⟩
  rw [h] at hl
  exact Except.noConfusion hl

/-- C7 (witness): `POLYGON_RPC_URL` is unset while `ETH_RPC_URL` is set
and reachable: `_connect` fails with the `configError` naming
`POLYGON_RPC_URL`, and the two-entry bootstrap fails with that exact
error and returns no list. -/
theorem connect_missing_url_config_error_witness :
    _connect envMissingUrl reachAlways "polygon" "POLYGON_RPC_URL" =
      .error (.configError "POLYGON_RPC_URL" "polygon") ∧
    bootstrapAll envMissingUrl reachAlways
        [("ethereum", "ETH_RPC_URL"), ("polygon", "POLYGON_RPC_URL")] =
      .error (.configError "POLYGON_RPC_URL" "polygon") ∧
    ∀ l, bootstrapAll envMissingUrl reachAlways
        [("ethereum", "ETH_RPC_URL"), ("polygon", "POLYGON_RPC_URL")] ≠
      .ok l := by
  have h := connect_missing_url_config_error envMissingUrl reachAlways
    "polygon" "POLYGON_RPC_URL" (Or.inl rfl)
  have h2 := h.2 [("ethereum", "ETH_RPC_URL")] []
    (fun p hp => by
      rcases List.mem_cons.mp hp with h1 | h1
      · subst h1
        exact ⟨{ name := "ethereum", web3 := "https://eth-ok" }, rfl⟩
      · exact absurd h1 (List.not_mem_nil p))
  exact ⟨h.1, h2.1, h2.2⟩

/-! ## Claim about the ConversionUtilities -/

/-- C8: the round-trip law — converting any integer base-unit amount to
the 18-decimal display unit and back is the exact identity:
`ether_to_wei (wei_to_ether x) = .ok x` with no rounding loss. -/
theorem wei_ether_roundtrip (x : ℤ) :
    ether_to_wei (wei_to_ether x) = .ok x := by
  have hx : wei_to_ether x * 10 ^ 18 = (x : ℚ) := by
    rw [wei_to_ether]
    field_simp
  rw [ether_to_wei, hx]
  simp

/-! ## Claim about `_get_env` -/

/-- C10: `_get_env` returns the environment variable's value when it is
set and the default otherwise; it raises the `RuntimeError` naming the
variable exactly when `required` is true and the resulting value is
`None` (variable unset and default `None`); with a non-`None` default it
never raises, even when `required` is true. -/
theorem get_env_required_default (env : String → Option String)
    (name : String) (default : Option String) (required : Bool) :
    (∀ v, env name = some v →
      _get_env env name default required = .ok (some v)) ∧
    (env name = none → ¬(required = true ∧ default = none) →
      _get_env env name default required = .ok default) ∧
    ((∃ msg, _get_env env name default required = .error msg) ↔
      (required = true ∧ env name = none ∧ default = none)) ∧
    (∀ msg, _get_env env name default required = .error msg →
      msg = "Environment variable \x27" ++ name ++
        "\x27 is required but not set") ∧
    (default ≠ none →
      ∀ msg, _get_env env name default required ≠ .error msg) := by
  refine ⟨?_, ?_, ?_, ?_, ?_⟩
  · intro v hv
    rw [_get_env_eq, hv]
  · intro hnone hnot
    rw [_get_env_eq, hnone]
    cases required with
    | false => rfl
    | true =>
      cases default with
      | none => exact absurd ⟨rfl, rfl⟩ hnot
      | some d => rfl
  · constructor
    · rintro ⟨msg, hmsg⟩
      rw [_get_env_eq] at hmsg
      cases henv : env name with
      | some v => rw [henv] at hmsg; exact Except.noConfusion hmsg
      | none =>
        rw [henv] at hmsg
        cases required with
        | false => exact Except.noConfusion hmsg
        | true =>
          cases default with
          | none => exact ⟨rfl, rfl, rfl⟩
          | some d => exact Except.noConfusion hmsg
    · rintro ⟨hreq, henv, hdef⟩
      subst hreq
      subst hdef
      exact ⟨_, by rw [_get_env_eq, henv]⟩
  · intro msg hmsg
    rw [_get_env_eq] at hmsg
    cases henv : env name with
    | some v => rw [henv] at hmsg; exact Except.noConfusion hmsg
    | none =>
      rw [henv] at hmsg
      cases required with
      | false => exact Except.noConfusion hmsg
      | true =>
        cases default with
        | none => exact (Except.error.injEq _ _).mp hmsg.symm
        | some d => exact Except.noConfusion hmsg
  · intro hdef msg hmsg
    rw [_get_env_eq] at hmsg
    cases henv : env name with
    | some v => rw [henv] at hmsg; exact Except.noConfusion hmsg
    | none =>
      rw [henv] at hmsg
      cases required with
      | false => exact Except.noConfusion hmsg
      | true =>
        cases default with
        | none => exact hdef rfl
        | some d => exact Except.noConfusion hmsg

/-- C10 (witness): with the variable unset — `envMissingUrl` has no
`MODE` entry — a required lookup with `None` default raises the exact
message; a required lookup with default `"test"` returns `"test"` and
never raises; and a set variable (`ETH_RPC_URL`) wins over its default. -/
theorem get_env_required_default_witness :
    _get_env envMissingUrl "MODE" none true =
      .error "Environment variable \x27MODE\x27 is required but not set" ∧
    _get_env envMissingUrl "MODE" (some "test") true = .ok (some "test") ∧
    (∀ msg, _get_env envMissingUrl "MODE" (some "test") true ≠ .error msg) ∧
    _get_env envMissingUrl "ETH_RPC_URL" (some "fallback") false =
      .ok (some "https://eth-ok") := by
  have h1 := get_env_required_default envMissingUrl "MODE" none true
  have h2 := get_env_required_default envMissingUrl "MODE" (some "test") true
  have h3 := get_env_required_default envMissingUrl "ETH_RPC_URL"
    (some "fallback") false
  refine ⟨?_, ?_, ?_, ?_⟩
  · obtain ⟨msg, hmsg⟩ := h1.2.2.1.mpr ⟨rfl, rfl, rfl⟩
    have := h1.2.2.2.1 msg hmsg
    rw [this] at hmsg
    exact hmsg
  · exact h2.2.1 rfl (by simp)
  · exact h2.2.2.2.2 (by simp)
  · exact h3.1 "https://eth-ok" rfl
